import Mathlib

/-!
Verification of the join pacing and outcome-tracking engine of NiftyJoiner
(src/NiftyJoiner.py), shallowly embedded in Lean.

The embedded operations are `get_group_info`, `join_single_group`,
`join_groups_batch` and `display_results_summary` of class
`TelegramGroupJoiner`.  Python strings are Lean `String`s; the string
primitives the source uses (`split('/')[-1]`, `"joinchat" in link`,
`startswith('+')`, `replace('+','')`, `replace('joinchat/','')`) are
re-implemented below by structural recursion over `List Char` so that they
compute inside the kernel, with the exact Python semantics.

The Telegram client is an opaque gateway: `resolve` models
`get_entity`/`GetFullChannelRequest` (any exception collapsed to `failed`),
`joinChannel` models `JoinChannelRequest`, `importChatInvite` models
`ImportChatInviteRequest`; their outcomes carry the telethon error
vocabulary caught in `join_single_group`.  `asyncio.sleep` is modelled by
recording the number of seconds slept before each attempt; `random.random()`
is an explicit stream `rand : Nat → ℚ`, and `datetime.now()` an explicit
clock `clock : Nat → Nat`.
-/

namespace NiftyJoiner

/-- Python `link.split('/')` (separator `'/'`): accumulator-based splitter
over the character list. -/
def splitSlash : List Char → List Char → List (List Char)
  | acc, [] => [acc.reverse]
  | acc, c :: rest =>
      if c = '/' then acc.reverse :: splitSlash [] rest
      else splitSlash (c :: acc) rest

/-- Python `link.split('/')[-1]` — the final path segment (the whole string
when there is no `'/'`; `split` never returns an empty list, so the default
never fires). -/
def lastSegment (link : String) : String :=
  String.mk ((splitSlash [] link.data).getLastD link.data)

/-- Python `"joinchat" in link` — substring containment of the literal
`"joinchat"`. -/
def hasJoinchat : List Char → Bool
  | 'j' :: 'o' :: 'i' :: 'n' :: 'c' :: 'h' :: 'a' :: 't' :: _ => true
  | _ :: rest => hasJoinchat rest
  | [] => false

/-- Python `channel_part.startswith('+')`. -/
def startsWithPlus : List Char → Bool
  | '+' :: _ => true
  | _ => false

/-- Python `channel_part.replace('+', '')` — deletes every occurrence of
`'+'`, not only a leading one. -/
def removePlus (s : List Char) : List Char := s.filter (fun c => c != '+')

/-- Python `invite_hash.replace('joinchat/', '')` — left-to-right
non-overlapping removal of the pattern `"joinchat/"`. -/
def removeJoinchatSlash : List Char → List Char
  | 'j' :: 'o' :: 'i' :: 'n' :: 'c' :: 'h' :: 'a' :: 't' :: '/' :: rest =>
      removeJoinchatSlash rest
  | c :: rest => c :: removeJoinchatSlash rest
  | [] => []

/-- The private-link test used identically in `get_group_info` (line 289)
and `join_single_group` (line 310):
`"joinchat" in link or channel_part.startswith('+')`. -/
def isPrivateLink (link : String) : Bool :=
  hasJoinchat link.data || startsWithPlus (lastSegment link).data

/-- The two target kinds of the spec's `JoinTarget`. -/
inductive LinkKind where
  | Public
  | PrivateInvite
deriving DecidableEq, Repr

/-- The kind the source's inline classification assigns to a raw link. -/
def classifyKind (link : String) : LinkKind :=
  if isPrivateLink link then LinkKind.PrivateInvite else LinkKind.Public

/-- `join_single_group` lines 311–315: the invite hash extracted from a
private link — `channel_part.replace('+','')`, then, when the link contains
`"joinchat"`, `.replace('joinchat/','')`. -/
def inviteHash (link : String) : String :=
  let h := removePlus (lastSegment link).data
  if hasJoinchat link.data then String.mk (removeJoinchatSlash h)
  else String.mk h

/-- The canonical identifier the source hands to the gateway: the invite
hash for private links (`ImportChatInviteRequest(invite_hash)`), the final
segment as-is for public ones (`JoinChannelRequest(channel_part)`). -/
def identifier (link : String) : String :=
  if isPrivateLink link then inviteHash link else lastSegment link

/-- `JoinResult` dataclass (lines 42–50).  `join_time` is an abstract clock
tick standing for the `datetime` value. -/
structure JoinResult where
  link : String
  success : Bool
  error : Option String := none
  group_name : Option String := none
  member_count : Option Nat := none
  join_time : Option Nat := none
deriving DecidableEq, Repr

/-- Outcome of the metadata lookup `get_entity` + `GetFullChannelRequest`:
either a title and participant count, or any exception (`failed`). -/
inductive ResolveResult where
  | ok (title : String) (participants_count : Nat)
  | failed
deriving DecidableEq, Repr

/-- Outcome of a join call on the Telegram client, covering exactly the
exceptions `join_single_group` catches (lines 336–392).  `success`
optionally carries `result.chats[0].title` for an invite import. -/
inductive GatewaySignal where
  | success (chatTitle : Option String)
  | userAlreadyParticipant
  | floodWait (seconds : Nat)
  | inviteHashExpired
  | channelPrivate
  | userBannedInChannel
  | otherError (msg : String)
deriving DecidableEq, Repr

/-- The opaque Telegram session gateway, keyed by the strings the source
passes to it. -/
structure Gateway where
  resolve : String → ResolveResult
  joinChannel : String → GatewaySignal
  importChatInvite : String → GatewaySignal

/-- `get_group_info` (lines 282–296): private links are skipped outright,
any lookup failure is swallowed to `(None, None)`. -/
def get_group_info (gw : Gateway) (link : String) :
    Option String × Option Nat :=
  let channel_part := lastSegment link
  if isPrivateLink link then (none, none)
  else
    match gw.resolve channel_part with
    | ResolveResult.ok title count => (some title, some count)
    | ResolveResult.failed => (none, none)

/-- The single gateway call `join_single_group` issues for a link:
`ImportChatInviteRequest(invite_hash)` for private links,
`JoinChannelRequest(channel_part)` for public ones (lines 310–324). -/
def gatewaySignalFor (gw : Gateway) (link : String) : GatewaySignal :=
  if isPrivateLink link then gw.importChatInvite (inviteHash link)
  else gw.joinChannel (lastSegment link)

/-- `join_single_group` (lines 298–392).  `start_time` models
`datetime.now()` at entry.  Every caught exception becomes a structured
`JoinResult`; on a successful invite import the freshly-learned title
(`result.chats[0].title`) overwrites the (absent) pre-join name. -/
def join_single_group (gw : Gateway) (link : String) (start_time : Nat) :
    JoinResult :=
  let info := get_group_info gw link
  let group_name := info.1
  let member_count := info.2
  match gatewaySignalFor gw link with
  | GatewaySignal.success chatTitle =>
      let gname :=
        if isPrivateLink link then
          match chatTitle with
          | some t => some t
          | none => group_name
        else group_name
      { link := link, success := true, group_name := gname,
        member_count := member_count, join_time := some start_time }
  | GatewaySignal.userAlreadyParticipant =>
      { link := link, success := true, error := some "Already a member",
        group_name := group_name, member_count := member_count,
        join_time := some start_time }
  | GatewaySignal.floodWait seconds =>
      { link := link, success := false,
        error := some ("Rate limited. Wait " ++ toString seconds ++ " seconds"),
        group_name := group_name, member_count := member_count,
        join_time := some start_time }
  | GatewaySignal.inviteHashExpired =>
      { link := link, success := false, error := some "Invalid or expired link",
        group_name := group_name, member_count := member_count,
        join_time := some start_time }
  | GatewaySignal.channelPrivate =>
      { link := link, success := false, error := some "Invalid or expired link",
        group_name := group_name, member_count := member_count,
        join_time := some start_time }
  | GatewaySignal.userBannedInChannel =>
      { link := link, success := false, error := some "Banned from this group",
        group_name := group_name, member_count := member_count,
        join_time := some start_time }
  | GatewaySignal.otherError msg =>
      { link := link, success := false, error := some msg,
        group_name := group_name, member_count := member_count,
        join_time := some start_time }

/-- The seconds `join_groups_batch` sleeps before attempt `i`
(lines 442–454): nothing before the first attempt; otherwise
`delay = base_interval`, jittered by `(0.8 + random.random() * 0.4)` when
`randomize`, and slept as `delay_seconds = delay * 60` (the configured
interval is in minutes).  `r` is the `random.random()` draw for this step. -/
def delaySeconds (i : Nat) (base_interval : ℚ) (randomize : Bool)
    (r : ℚ) : ℚ :=
  if i = 0 then 0
  else
    let delay :=
      if randomize then base_interval * (4 / 5 + r * (2 / 5))
      else base_interval
    delay * 60

/-- The `for i, link in enumerate(links)` loop body of `join_groups_batch`
(lines 442–459), recorded as (seconds slept before the attempt, appended
result) pairs; `i` is the running `enumerate` index. -/
def batchLoop (gw : Gateway) (base_interval : ℚ) (randomize : Bool)
    (rand : Nat → ℚ) (clock : Nat → Nat) :
    Nat → List String → List (ℚ × JoinResult)
  | _, [] => []
  | i, link :: rest =>
      (delaySeconds i base_interval randomize (rand i),
        join_single_group gw link (clock i)) ::
        batchLoop gw base_interval randomize rand clock (i + 1) rest

/-- `join_groups_batch` (lines 428–475): the full trace of a batch run. -/
def join_groups_batch (gw : Gateway) (links : List String)
    (base_interval : ℚ) (randomize : Bool) (rand : Nat → ℚ)
    (clock : Nat → Nat) : List (ℚ × JoinResult) :=
  batchLoop gw base_interval randomize rand clock 0 links

/-- The `results` list the source returns from `join_groups_batch`. -/
def results_of (trace : List (ℚ × JoinResult)) : List JoinResult :=
  trace.map Prod.snd

/-- The counts and percentages `display_results_summary` computes. -/
structure ResultsSummary where
  successful : Nat
  failed : Nat
  successful_pct : ℚ
  failed_pct : ℚ
deriving DecidableEq, Repr

/-- `display_results_summary` (lines 477–489): `successful` counts results
with `success`, `failed = len(results) - successful`; the percentage cells
divide by `len(results)`, which raises `ZeroDivisionError` on an empty
list. -/
def display_results_summary (results : List JoinResult) :
    Except String ResultsSummary :=
  let successful := (results.filter (fun r => r.success)).length
  let failed := results.length - successful
  if results.length = 0 then Except.error "ZeroDivisionError: division by zero"
  else
    Except.ok
      { successful := successful, failed := failed,
        successful_pct := (successful : ℚ) / (results.length : ℚ) * 100,
        failed_pct := (failed : ℚ) / (results.length : ℚ) * 100 }

/-! ### Concrete gateways used to exercise the model -/

/-- A gateway on which every join succeeds and metadata lookup fails. -/
def gwSuccess : Gateway :=
  ⟨fun _ => ResolveResult.failed, fun _ => GatewaySignal.success none,
    fun _ => GatewaySignal.success none⟩

/-- A gateway that always reports a flood wait of 1000 seconds. -/
def gwFlood : Gateway :=
  ⟨fun _ => ResolveResult.failed, fun _ => GatewaySignal.floodWait 1000,
    fun _ => GatewaySignal.floodWait 1000⟩

/-- A gateway that always reports the user is already a participant. -/
def gwAlready : Gateway :=
  ⟨fun _ => ResolveResult.failed, fun _ => GatewaySignal.userAlreadyParticipant,
    fun _ => GatewaySignal.userAlreadyParticipant⟩

/-- A gateway that agrees with `gwSuccess` on channel `"a"` but fails every
other join. -/
def gwBoom : Gateway :=
  ⟨fun _ => ResolveResult.failed,
    fun s => if s = "a" then GatewaySignal.success none
      else GatewaySignal.otherError "boom",
    fun _ => GatewaySignal.otherError "boom"⟩

/-! ### Helper lemmas -/

/-- Every branch of `join_single_group` copies the attempted link into the
result. -/
theorem join_single_group_link (gw : Gateway) (link : String) (t : Nat) :
    (join_single_group gw link t).link = link := by
  unfold join_single_group
  cases h : gatewaySignalFor gw link <;> simp [h]

/-- `join_single_group` consults the gateway only at the attempted link's
own keys: its result is unchanged under any gateway that answers the same
there. -/
theorem join_single_group_congr (gw gw2 : Gateway) (link : String) (t : Nat)
    (hsig : gatewaySignalFor gw2 link = gatewaySignalFor gw link)
    (hres : gw2.resolve (lastSegment link) = gw.resolve (lastSegment link)) :
    join_single_group gw2 link t = join_single_group gw link t := by
  simp only [join_single_group, get_group_info, hsig, hres]

/-- Trace entry `j` of the batch loop started at index `i`. -/
theorem batchLoop_elem (gw : Gateway) (b : ℚ) (rz : Bool) (rand : Nat → ℚ)
    (clock : Nat → Nat) :
    ∀ (links : List String) (i j : Nat),
      (batchLoop gw b rz rand clock i links)[j]? =
        (links[j]?).map (fun link =>
          (delaySeconds (i + j) b rz (rand (i + j)),
            join_single_group gw link (clock (i + j)))) := by
  intro links
  induction links with
  | nil => intro i j; simp [batchLoop]
  | cons a rest ih =>
      intro i j
      cases j with
      | zero => simp [batchLoop]
      | succ j' =>
          have harith : i + 1 + j' = i + (j' + 1) := by omega
          simp [batchLoop, ih (i + 1) j', harith]

/-- The batch loop records one entry per input link. -/
theorem batchLoop_length (gw : Gateway) (b : ℚ) (rz : Bool)
    (rand : Nat → ℚ) (clock : Nat → Nat) :
    ∀ (links : List String) (i : Nat),
      (batchLoop gw b rz rand clock i links).length = links.length := by
  intro links
  induction links with
  | nil => intro i; simp [batchLoop]
  | cons a rest ih => intro i; simp [batchLoop, ih (i + 1)]

/-- Characters surviving `removeJoinchatSlash` come from the input. -/
theorem mem_removeJoinchatSlash {c : Char} :
    ∀ {l : List Char}, c ∈ removeJoinchatSlash l → c ∈ l := by
  intro l
  induction l using removeJoinchatSlash.induct with
  | case1 rest ih =>
      intro h
      have := ih h
      simp only [removeJoinchatSlash, List.mem_cons] at *
      tauto
  | case2 d rest hne ih =>
      intro h
      rw [removeJoinchatSlash] at h
      · rcases List.mem_cons.mp h with h1 | h2
        · exact h1 ▸ List.mem_cons_self _ _
        · exact List.mem_cons_of_mem _ (ih h2)
      · exact hne
  | case3 =>
      intro h
      simp [removeJoinchatSlash] at h

/-- The last piece `splitSlash` delivers never contains the separator
`'/'` (for any default, since the splitter never returns an empty list). -/
theorem splitSlash_getLastD_no_slash :
    ∀ (s acc d : List Char), '/' ∉ acc →
      '/' ∉ (splitSlash acc s).getLastD d := by
  intro s
  induction s with
  | nil =>
      intro acc d hacc
      rw [splitSlash, List.getLastD_cons, List.getLastD_nil]
      simpa using hacc
  | cons c rest ih =>
      intro acc d hacc
      by_cases hc : c = '/'
      · rw [splitSlash, if_pos hc, List.getLastD_cons]
        exact ih [] acc.reverse (by simp)
      · rw [splitSlash, if_neg hc]
        exact ih (c :: acc) d (by
          intro hm
          rcases List.mem_cons.mp hm with h1 | h2
          · exact hc h1.symm
          · exact hacc h2)

/-- The final path segment of a link contains no `'/'`. -/
theorem lastSegment_no_slash (link : String) :
    '/' ∉ (lastSegment link).data :=
  splitSlash_getLastD_no_slash link.data [] link.data (by simp)

/-- Removing the pattern `"joinchat/"` is the identity on any character
list without `'/'`. -/
theorem removeJoinchatSlash_of_no_slash :
    ∀ l : List Char, '/' ∉ l → removeJoinchatSlash l = l := by
  intro l
  induction l using removeJoinchatSlash.induct with
  | case1 rest ih =>
      intro h
      exact absurd (by simp) h
  | case2 d rest hne ih =>
      intro h
      rw [removeJoinchatSlash]
      · rw [ih (fun hm => h (List.mem_cons_of_mem _ hm))]
      · exact hne
  | case3 =>
      intro h
      simp [removeJoinchatSlash]

/-! ### Claim theorems -/

/-- C2: a raw link classifies as `PrivateInvite` exactly when it contains
the substring `"joinchat"` or its final path segment starts with `'+'`;
every other link classifies as `Public` with identifier equal to the final
segment as-is. -/
theorem C2_classification (link : String) :
    (classifyKind link = LinkKind.PrivateInvite ↔
      (hasJoinchat link.data = true ∨
        startsWithPlus (lastSegment link).data = true)) ∧
    (¬(hasJoinchat link.data = true ∨
        startsWithPlus (lastSegment link).data = true) →
      classifyKind link = LinkKind.Public ∧
        identifier link = lastSegment link) := by
  cases h1 : hasJoinchat link.data <;>
    cases h2 : startsWithPlus (lastSegment link).data <;>
      simp [classifyKind, isPrivateLink, identifier, h1, h2]

/-- C2 witness: `https://t.me/publicgroup` is public and keeps its final
segment as identifier. -/
theorem C2_classification_witness :
    classifyKind "https://t.me/publicgroup" = LinkKind.Public ∧
      identifier "https://t.me/publicgroup" =
        lastSegment "https://t.me/publicgroup" :=
  (C2_classification "https://t.me/publicgroup").2 (by decide)

/-- C3 counterexample: the claim preserves a non-leading `'+'` of the final
segment, so it predicts identifier `"A+B"` for `https://t.me/+A+B`; the
source's `replace('+','')` deletes every `'+'` and yields `"AB"`. -/
theorem C3_counterexample :
    classifyKind "https://t.me/+A+B" = LinkKind.PrivateInvite ∧
      identifier "https://t.me/+A+B" = "AB" ∧
      identifier "https://t.me/+A+B" ≠ "A+B" := by decide

/-- C3 (amended): for every `PrivateInvite` link — `"joinchat"` links
included — the identifier equals the final path segment with every `'+'`
removed (leading or not); the subsequent `"joinchat/"` removal is a no-op
because the final path segment contains no `'/'`.  In particular no `'+'`
survives into the identifier, and `classify "https://t.me/+XYZ789"` still
extracts `"XYZ789"`. -/
theorem C3_private_identifier_strips_all_plus :
    identifier "https://t.me/+XYZ789" = "XYZ789" ∧
    identifier "https://t.me/joinchat/AB+C" = "ABC" ∧
    (∀ link : String, isPrivateLink link = true →
      identifier link = String.mk (removePlus (lastSegment link).data)) ∧
    (∀ link : String, isPrivateLink link = true →
      ∀ c : Char, c ∈ (identifier link).data →
        c ∈ (lastSegment link).data ∧ c ≠ '+') := by
  refine ⟨by decide, by decide, ?_, ?_⟩
  · intro link hpriv
    have hseg : '/' ∉ removePlus (lastSegment link).data :=
      fun hm => lastSegment_no_slash link (List.mem_filter.mp hm).1
    cases hj : hasJoinchat link.data <;>
      simp [identifier, hpriv, inviteHash, hj,
        removeJoinchatSlash_of_no_slash _ hseg]
  · intro link hpriv c hc
    simp only [identifier, hpriv, if_true, inviteHash] at hc
    have hmem : c ∈ removePlus (lastSegment link).data := by
      cases hj : hasJoinchat link.data <;> simp only [hj] at hc
      · simpa using hc
      · exact mem_removeJoinchatSlash (by simpa using hc)
    have := List.mem_filter.mp hmem
    exact ⟨this.1, by simpa using this.2⟩

/-- C3 witness: at the `"joinchat"` private link
`https://t.me/joinchat/AB+C`, the identifier is exactly the final segment
with every `'+'` removed, and its character `'B'` comes from the final
segment and is not `'+'`. -/
theorem C3_private_identifier_witness :
    identifier "https://t.me/joinchat/AB+C" =
      String.mk (removePlus (lastSegment "https://t.me/joinchat/AB+C").data) ∧
    ('B' ∈ (lastSegment "https://t.me/joinchat/AB+C").data ∧ 'B' ≠ '+') :=
  ⟨C3_private_identifier_strips_all_plus.2.2.1 "https://t.me/joinchat/AB+C"
      (by decide),
    C3_private_identifier_strips_all_plus.2.2.2 "https://t.me/joinchat/AB+C"
      (by decide) 'B' (by decide)⟩

/-- C4: no wait is performed before the first attempt — the scheduler
yields `0` for index `0` under any policy, and the first trace entry of any
batch run records a slept delay of `0` seconds. -/
theorem C4_no_delay_before_first_attempt (gw : Gateway) (links : List String)
    (b : ℚ) (rz : Bool) (rand : Nat → ℚ) (clock : Nat → Nat) (r : ℚ) :
    delaySeconds 0 b rz r = 0 ∧
    ((join_groups_batch gw links b rz rand clock)[0]?).map Prod.fst =
      (links[0]?).map (fun _ => (0 : ℚ)) := by
  constructor
  · simp [delaySeconds]
  · rw [join_groups_batch, batchLoop_elem]
    cases links[0]? <;> simp [delaySeconds]

/-- C5 counterexample: with jitter disabled and configured base interval
`5`, the run sleeps `300` seconds before attempt `1`, not `5`: the source
treats the configured interval as minutes and sleeps
`delay_seconds = delay * 60`. -/
theorem C5_counterexample :
    ((join_groups_batch gwSuccess ["https://t.me/a", "https://t.me/b"] 5
        false (fun _ => 0) (fun i => i))[1]?).map Prod.fst = some 300 ∧
      (300 : ℚ) ≠ 5 := by
  constructor
  · show ((batchLoop gwSuccess 5 false _ _ 0 _)[1]?).map Prod.fst = _
    rw [batchLoop_elem]
    simp only [List.getElem?_cons_succ, List.getElem?_cons_zero, Option.map_some]
    norm_num [delaySeconds]
  · norm_num

/-- C5 (amended): with jitter disabled, the delay slept before every
attempt `i > 0` is `base_interval * 60` seconds — sixty times the
configured value, since the source reads the interval as minutes. -/
theorem C5_no_jitter_delay_is_base_times_60 (gw : Gateway)
    (links : List String) (b : ℚ) (rand : Nat → ℚ) (clock : Nat → Nat)
    (i : Nat) (hi : 0 < i) :
    ((join_groups_batch gw links b false rand clock)[i]?).map Prod.fst =
      (links[i]?).map (fun _ => b * 60) := by
  rw [join_groups_batch, batchLoop_elem]
  cases links[i]? <;> simp [delaySeconds, hi.ne']

/-- C5 witness: the amended statement at base interval `5`, attempt `1`. -/
theorem C5_no_jitter_witness :
    ((join_groups_batch gwSuccess ["https://t.me/a", "https://t.me/b"] 5
        false (fun _ => 0) (fun i => i))[1]?).map Prod.fst =
      some ((5 : ℚ) * 60) := by
  have h := C5_no_jitter_delay_is_base_times_60 gwSuccess
    ["https://t.me/a", "https://t.me/b"] 5 (fun _ => 0) (fun i => i) 1
    (by norm_num)
  simpa using h

/-- C10: the summary is well-defined exactly on non-empty result lists —
successful and failed counts always sum to the total there — while the
empty list raises a division-by-zero error instead of reporting an empty
summary. -/
theorem C10_summary_counts_and_empty_division :
    (∀ results : List JoinResult, results ≠ [] →
      ∃ s, display_results_summary results = Except.ok s ∧
        s.successful + s.failed = results.length) ∧
    display_results_summary [] =
      Except.error "ZeroDivisionError: division by zero" := by
  constructor
  · intro results h
    have hlen : results.length ≠ 0 := by
      simpa using fun hh => h (List.length_eq_zero.mp hh)
    refine ⟨ResultsSummary.mk ((results.filter (fun r => r.success)).length)
        (results.length - (results.filter (fun r => r.success)).length)
        (((results.filter (fun r => r.success)).length : ℚ) /
          (results.length : ℚ) * 100)
        (((results.length - (results.filter (fun r => r.success)).length :
          ℕ) : ℚ) / (results.length : ℚ) * 100), ?_, ?_⟩
    · simp [display_results_summary, hlen]
    · exact Nat.add_sub_cancel' (List.length_filter_le _ _)
  · rfl

/-- C10 witness: a one-element result list yields a summary whose counts
sum to one. -/
theorem C10_summary_witness :
    ∃ s, display_results_summary
        [({ link := "https://t.me/a", success := true } : JoinResult)] =
      Except.ok s ∧ s.successful + s.failed = 1 := by
  have h := C10_summary_counts_and_empty_division.1
    [({ link := "https://t.me/a", success := true } : JoinResult)] (by decide)
  simpa using h

/-- C1: a batch run over `N` targets produces exactly `N` results, the
`i`-th result is the outcome of the single-join operation on the `i`-th
target (at its attempt time), and the recorded link of result `i` is
target `i` — strict target-list order, no reordering or skipping, under
every gateway behaviour. -/
theorem C1_results_match_targets (gw : Gateway) (links : List String)
    (b : ℚ) (rz : Bool) (rand : Nat → ℚ) (clock : Nat → Nat) :
    (results_of (join_groups_batch gw links b rz rand clock)).length =
      links.length ∧
    (∀ i : Nat,
      (results_of (join_groups_batch gw links b rz rand clock))[i]? =
        (links[i]?).map (fun link => join_single_group gw link (clock i))) ∧
    (∀ i : Nat,
      ((results_of (join_groups_batch gw links b rz rand clock))[i]?).map
        JoinResult.link = links[i]?) := by
  have hget : ∀ i : Nat,
      (results_of (join_groups_batch gw links b rz rand clock))[i]? =
        (links[i]?).map (fun link => join_single_group gw link (clock i)) := by
    intro i
    rw [results_of, List.getElem?_map, join_groups_batch, batchLoop_elem]
    cases links[i]? <;> simp
  refine ⟨?_, hget, ?_⟩
  · rw [results_of, List.length_map, join_groups_batch, batchLoop_length]
  · intro i
    rw [hget i]
    cases links[i]? <;> simp [join_single_group_link]

/-- C6 counterexample: on a gateway whose every join raises a flood wait of
`1000` seconds, attempt `0` is recorded as rate-limited with `W = 1000`,
yet the run sleeps only `60` seconds (the policy delay for base interval
`1` with jitter off) before attempt `1` — not at least `W`. -/
theorem C6_counterexample :
    ((join_groups_batch gwFlood ["https://t.me/a", "https://t.me/b"] 1
        false (fun _ => 0) (fun i => i))[0]?).map
        (fun p => (p.2.success, p.2.error)) =
      some (false, some "Rate limited. Wait 1000 seconds") ∧
    ((join_groups_batch gwFlood ["https://t.me/a", "https://t.me/b"] 1
        false (fun _ => 0) (fun i => i))[1]?).map Prod.fst = some 60 ∧
    ¬((60 : ℚ) ≥ 1000) := by
  refine ⟨?_, ?_, by norm_num⟩
  · show ((batchLoop gwFlood 1 false _ _ 0 _)[0]?).map _ = _
    rw [batchLoop_elem]
    simp only [List.getElem?_cons_zero, Option.map_some]
    decide
  · show ((batchLoop gwFlood 1 false _ _ 0 _)[1]?).map Prod.fst = _
    rw [batchLoop_elem]
    simp only [List.getElem?_cons_succ, List.getElem?_cons_zero,
      Option.map_some]
    norm_num [delaySeconds]

/-- C6 (amended): the batch loop never applies an override for a prior
rate-limited outcome — the delay slept before attempt `i` is exactly the
policy-computed `delaySeconds i`, and it is identical under any two
gateways, whatever wait durations their flood-wait signals carry. -/
theorem C6_no_override_delay_is_policy_delay (gw gw2 : Gateway)
    (links : List String) (b : ℚ) (rz : Bool) (rand : Nat → ℚ)
    (clock : Nat → Nat) (i : Nat) :
    ((join_groups_batch gw links b rz rand clock)[i]?).map Prod.fst =
      (links[i]?).map (fun _ => delaySeconds i b rz (rand i)) ∧
    ((join_groups_batch gw links b rz rand clock)[i]?).map Prod.fst =
      ((join_groups_batch gw2 links b rz rand clock)[i]?).map Prod.fst := by
  rw [join_groups_batch, join_groups_batch, batchLoop_elem, batchLoop_elem]
  cases links[i]? <;> simp

/-- C7: the gateway signal "already a participant" always produces a
success-class outcome carrying the detail `"Already a member"`, never a
failed one. -/
theorem C7_already_participant_is_success (gw : Gateway) (link : String)
    (t : Nat)
    (h : gatewaySignalFor gw link = GatewaySignal.userAlreadyParticipant) :
    (join_single_group gw link t).success = true ∧
    (join_single_group gw link t).error = some "Already a member" := by
  simp [join_single_group, h]

/-- C7 witness: on a gateway that always answers "already participant",
joining `https://t.me/abc` succeeds with the expected detail. -/
theorem C7_witness :
    (join_single_group gwAlready "https://t.me/abc" 0).success = true ∧
    (join_single_group gwAlready "https://t.me/abc" 0).error =
      some "Already a member" :=
  C7_already_participant_is_success gwAlready "https://t.me/abc" 0 (by decide)

/-- C8: under every gateway behaviour — all failures included — the run
still records one structured outcome per target, and the outcome recorded
for target `i` depends only on the gateway's answers for target `i`'s own
keys: arbitrarily different failures on the other targets leave it
unchanged. -/
theorem C8_failures_recovered_per_target (gw gw2 : Gateway)
    (links : List String) (b : ℚ) (rz : Bool) (rand : Nat → ℚ)
    (clock : Nat → Nat) :
    (results_of (join_groups_batch gw links b rz rand clock)).length =
      links.length ∧
    (∀ i : Nat,
      (∀ link', links[i]? = some link' →
        gatewaySignalFor gw2 link' = gatewaySignalFor gw link' ∧
        gw2.resolve (lastSegment link') = gw.resolve (lastSegment link')) →
      (results_of (join_groups_batch gw2 links b rz rand clock))[i]? =
        (results_of (join_groups_batch gw links b rz rand clock))[i]?) := by
  constructor
  · rw [results_of, List.length_map, join_groups_batch, batchLoop_length]
  · intro i hagree
    rw [results_of, results_of, List.getElem?_map, List.getElem?_map,
      join_groups_batch, join_groups_batch, batchLoop_elem, batchLoop_elem]
    cases hl : links[i]? with
    | none => simp
    | some link' =>
        have h := hagree link' hl
        simp only [Nat.zero_add, Option.map_some', Option.some.injEq]
        exact join_single_group_congr gw gw2 link' (clock i) h.1 h.2

/-- C8 witness: a gateway that fails target `b` with an error still yields
the same recorded outcome for target `a` as the all-success gateway. -/
theorem C8_witness :
    (results_of (join_groups_batch gwBoom ["https://t.me/a", "https://t.me/b"]
        1 false (fun _ => 0) (fun i => i)))[0]? =
      (results_of (join_groups_batch gwSuccess
        ["https://t.me/a", "https://t.me/b"] 1 false (fun _ => 0)
        (fun i => i)))[0]? :=
  (C8_failures_recovered_per_target gwSuccess gwBoom
      ["https://t.me/a", "https://t.me/b"] 1 false (fun _ => 0)
      (fun i => i)).2 0
    (by
      intro link' hl
      have hlink : link' = "https://t.me/a" := by
        simpa using hl.symm
      subst hlink
      exact ⟨by decide, by decide⟩)

/-- C9: pre-join metadata resolution is total and non-blocking: it returns
absent metadata for every private target (skipped outright) and for every
failed lookup, and the join attempt's success and error are unaffected by
the resolution component of the gateway. -/
theorem C9_metadata_resolution_nonblocking (gw gw2 : Gateway)
    (link : String) :
    (isPrivateLink link = true → get_group_info gw link = (none, none)) ∧
    (gw.resolve (lastSegment link) = ResolveResult.failed →
      get_group_info gw link = (none, none)) ∧
    (gw.joinChannel = gw2.joinChannel →
      gw.importChatInvite = gw2.importChatInvite →
      ∀ t : Nat,
        (join_single_group gw link t).success =
          (join_single_group gw2 link t).success ∧
        (join_single_group gw link t).error =
          (join_single_group gw2 link t).error) := by
  refine ⟨?_, ?_, ?_⟩
  · intro h
    simp [get_group_info, h]
  · intro h
    unfold get_group_info
    cases hp : isPrivateLink link <;> simp [h]
  · intro hj hi t
    have hsig : gatewaySignalFor gw link = gatewaySignalFor gw2 link := by
      rw [gatewaySignalFor, gatewaySignalFor, hj, hi]
    cases h : gatewaySignalFor gw2 link <;>
      simp [join_single_group, hsig, h]

/-- C9 witness: for the private target `https://t.me/+X` on the
lookup-failing gateway, metadata is absent on both grounds and the join
outcome fields agree with themselves under equal join components. -/
theorem C9_witness :
    get_group_info gwSuccess "https://t.me/+X" = (none, none) ∧
    ((join_single_group gwSuccess "https://t.me/+X" 0).success =
        (join_single_group gwSuccess "https://t.me/+X" 0).success ∧
      (join_single_group gwSuccess "https://t.me/+X" 0).error =
        (join_single_group gwSuccess "https://t.me/+X" 0).error) :=
  ⟨(C9_metadata_resolution_nonblocking gwSuccess gwSuccess
      "https://t.me/+X").1 (by decide),
    (C9_metadata_resolution_nonblocking gwSuccess gwSuccess
      "https://t.me/+X").2.2 rfl rfl 0⟩

end NiftyJoiner
